import Mathlib

/-!
Shallow embedding of the suspendable pipeline runner of
`src/factor-06-launch-pause-resume/index.ts`: the `WorkflowState` record,
the in-memory run-state store, and the `launchWorkflow` / `resumeWorkflow`
APIs with their shared sequential step-advance loop.

Modelling notes.
* Step inputs and outputs are `unknown` in the source; they are modelled by a
  type parameter `V`.
* A step's `execute` may throw; it is modelled as `V → Except String (StepResult V)`,
  an error carrying the thrown message.
* `stepData` is a `Record<string, unknown>`; it is modelled as an association
  list with JavaScript object-key semantics (assignment overwrites an existing
  key in place, otherwise appends).
* The store `workflowStates` is a `Map<string, WorkflowState>` keyed by
  `state.runId` in `saveWorkflowState`; it is modelled as a function
  `String → Option (WorkflowState V)` updated pointwise.
* `lastModified` is set from `Date.now()` (real wall-clock time); it is not
  modelled — no claim refers to it.
* The step array `steps` is a module-level constant in the source; the loop in
  `launchWorkflow` / `resumeWorkflow` only iterates over it, so the embedding
  passes it as an explicit parameter `sts`, letting claims quantify over
  pipelines. The source initialises `currentStep` to the literal string
  `"parse-request"`, which is the id of the first step of the source's
  pipeline; the embedding keeps the literal.
* In the source, step values are fed by local mutation inside one call; the
  embedding threads the state and the store explicitly. Every `return` and
  `throw` in the source is immediately preceded by a `saveWorkflowState`, so
  the store returned by the embedding agrees with the map contents observed
  by a caller of the source at return time.
-/

namespace Factor06

/-- Status field of a `WorkflowState`: `'running' | 'suspended' | 'completed' | 'failed'`. -/
inductive Status where
  | running
  | suspended
  | completed
  | failed
deriving DecidableEq, Repr

/-- Result of a step's `execute`: `{ output: unknown; suspend?: boolean; reason?: string }`.
A missing `suspend` is falsy in the source, so it is modelled as a plain `Bool`;
a missing `reason` is `none`. -/
structure StepResult (V : Type) where
  output : V
  suspend : Bool
  reason : Option String
deriving DecidableEq, Repr

/-- A workflow step: `{ id: string; execute: (input) => Promise<StepResult> }`.
The `name` and `needsSuspension` fields of the source are narration-only
metadata never read by the runner and are omitted. A thrown exception is the
`Except.error` case. -/
structure Step (V : Type) where
  id : String
  execute : V → Except String (StepResult V)

/-- The persisted run state, `interface WorkflowState` of the source
(without the unmodelled wall-clock `lastModified`). -/
structure WorkflowState (V : Type) where
  runId : String
  status : Status
  currentStep : String
  stepData : List (String × V)
  inputData : V
  suspendReason : Option String
deriving DecidableEq, Repr

/-- JavaScript object-key assignment `m[k] = v` on a `Record` modelled as an
association list: overwrite in place if the key exists, otherwise append. -/
def setData {V : Type} : List (String × V) → String → V → List (String × V)
  | [], k, v => [(k, v)]
  | (k', v') :: rest, k, v =>
      if k' = k then (k, v) :: rest else (k', v') :: setData rest k v

/-- Key lookup `m[k]` on the association list modelling a `Record`. -/
def getData {V : Type} : List (String × V) → String → Option V
  | [], _ => none
  | (k', v') :: rest, k => if k' = k then some v' else getData rest k

/-- The in-memory store `workflowStates : Map<string, WorkflowState>`. -/
def Store (V : Type) : Type := String → Option (WorkflowState V)

/-- The empty store (a fresh `Map`). -/
def emptyStore (V : Type) : Store V := fun _ => none

/-- Source `saveWorkflowState`: `workflowStates.set(state.runId, state)`.
The key is the state's own `runId` field. -/
def saveWorkflowState {V : Type} (store : Store V) (st : WorkflowState V) : Store V :=
  fun k => if k = st.runId then some st else store k

/-- Source `loadWorkflowState`: `workflowStates.get(runId) || null`. -/
def loadWorkflowState {V : Type} (store : Store V) (runId : String) :
    Option (WorkflowState V) :=
  store runId

/-- Successful return value of `launchWorkflow` / `resumeWorkflow`: either
`{ suspended: true, reason, runId, currentStep }` or `{ completed: true, result }`. -/
inductive RunOutcome (V : Type) where
  | suspended (reason : Option String) (runId : String) (currentStep : String)
  | completed (result : V)
deriving DecidableEq, Repr

/-- The sequential step-advance loop shared by `launchWorkflow` (over the whole
pipeline) and `resumeWorkflow` (over the steps after the suspension point).
For each step: set `currentStep`, run `execute`; on a throw set
`status = failed`, save, and propagate the error; otherwise record the output
in `stepData`, and if the result requests suspension set
`status = suspended` / `suspendReason`, save, and return the suspended
outcome; otherwise feed the output to the next step. After the last step set
`status = completed`, save, and return the completed outcome. Returns the
result, the final local `workflowState`, and the final store. -/
def stepLoop {V : Type} (runId : String) :
    List (Step V) → V → WorkflowState V → Store V →
      Except String (RunOutcome V) × WorkflowState V × Store V
  | [], input, st, store =>
      let st' := { st with status := Status.completed }
      (Except.ok (RunOutcome.completed input), st', saveWorkflowState store st')
  | step :: rest, input, st, store =>
      let st₁ := { st with currentStep := step.id }
      match step.execute input with
      | Except.error e =>
          let st₂ := { st₁ with status := Status.failed }
          (Except.error e, st₂, saveWorkflowState store st₂)
      | Except.ok res =>
          let st₂ := { st₁ with stepData := setData st₁.stepData step.id res.output }
          if res.suspend then
            let st₃ := { st₂ with status := Status.suspended, suspendReason := res.reason }
            (Except.ok (RunOutcome.suspended res.reason runId step.id), st₃,
              saveWorkflowState store st₃)
          else
            stepLoop runId rest res.output st₂ store

/-- The fresh state created at the top of `launchWorkflow`:
`{ runId, status: 'running', currentStep: 'parse-request', stepData: {}, inputData, ... }`. -/
def initState {V : Type} (input : V) (runId : String) : WorkflowState V :=
  { runId := runId
    status := Status.running
    currentStep := "parse-request"
    stepData := []
    inputData := input
    suspendReason := none }

/-- Source `launchWorkflow(input, runId)`: create a fresh running state, save
it, then drive the step loop over the whole pipeline. The source wraps its CLI
string argument as `{ userInput: input }` before storing it in `inputData`;
the embedding takes the already-wrapped value `input : V`. -/
def launchWorkflow {V : Type} (sts : List (Step V)) (input : V) (runId : String)
    (store : Store V) : Except String (RunOutcome V) × WorkflowState V × Store V :=
  let st := initState input runId
  let store₁ := saveWorkflowState store st
  stepLoop runId sts st.inputData st store₁

/-- JavaScript `Array.prototype.findIndex` specialised to the step array,
with the not-found result `-1` modelled as `none`. -/
def findIndex {V : Type} (p : Step V → Bool) : List (Step V) → Option Nat
  | [] => none
  | s :: rest => if p s then some 0 else (findIndex p rest).map (· + 1)

/-- Source `resumeWorkflow(runId, resumeData)`: load the state; unless it
exists with `status = 'suspended'`, throw. Otherwise set `status = 'running'`,
save, locate `currentStep` in the pipeline by `findIndex` (a miss throws
inside the `try`, so it is caught: `status = 'failed'` is saved and the error
propagates), and drive the step loop over the steps strictly after that
index with `resumeData` as the first input. -/
def resumeWorkflow {V : Type} (sts : List (Step V)) (runId : String) (resumeData : V)
    (store : Store V) : Except String (RunOutcome V) × Store V :=
  match loadWorkflowState store runId with
  | none => (Except.error ("No suspended workflow found for runId: " ++ runId), store)
  | some st0 =>
      if st0.status = Status.suspended then
        let st₁ := { st0 with status := Status.running }
        let store₁ := saveWorkflowState store st₁
        match findIndex (fun s => s.id == st₁.currentStep) sts with
        | none =>
            let st₂ := { st₁ with status := Status.failed }
            (Except.error ("Invalid step: " ++ st₁.currentStep),
              saveWorkflowState store₁ st₂)
        | some i =>
            let out := stepLoop runId (sts.drop (i + 1)) resumeData st₁ store₁
            (out.1, out.2.2)
      else
        (Except.error ("No suspended workflow found for runId: " ++ runId), store)

/-! Specification-side predicates used to quantify over pipelines in the
claims: a step that never requests suspension, a step that always requests
suspension, and a step that always throws. -/

/-- A step whose `execute` always succeeds without requesting suspension. -/
def CleanStep {V : Type} (s : Step V) : Prop :=
  ∀ v, ∃ r, s.execute v = Except.ok r ∧ r.suspend = false

/-- A step whose `execute` always succeeds and requests suspension. -/
def SuspendingStep {V : Type} (s : Step V) : Prop :=
  ∀ v, ∃ r, s.execute v = Except.ok r ∧ r.suspend = true

/-- A step whose `execute` always throws. -/
def ThrowingStep {V : Type} (s : Step V) : Prop :=
  ∀ v, ∃ e, s.execute v = Except.error e

/-! Concrete steps over `V = Nat` used to instantiate the theorems on closed
inputs (the source's demo steps parse strings and do arithmetic; these are
minimal steps of the same `Step` shape exercising each contract case). -/

/-- Concrete clean step: id `"a"`, output `v + 1`, never suspends. -/
def exStepA : Step Nat := ⟨"a", fun v => Except.ok ⟨v + 1, false, none⟩⟩

/-- Concrete clean step: id `"b"`, output `v * 2`, never suspends. -/
def exStepB : Step Nat := ⟨"b", fun v => Except.ok ⟨v * 2, false, none⟩⟩

/-- Concrete suspending step: id `"s"`, output `v`, always suspends with
reason `"needs review"`. -/
def exStepS : Step Nat := ⟨"s", fun v => Except.ok ⟨v, true, some "needs review"⟩⟩

/-- Concrete suspending step: id `"u"`, output `v`, always suspends with
reason `"needs approval"`. -/
def exStepU : Step Nat := ⟨"u", fun v => Except.ok ⟨v, true, some "needs approval"⟩⟩

/-- Concrete suspending step with a missing reason: id `"x"`, output `v`,
always suspends with `reason` absent. -/
def exStepX : Step Nat := ⟨"x", fun v => Except.ok ⟨v, true, none⟩⟩

/-- Concrete throwing step: id `"t"`, always throws `"boom"`. -/
def exStepT : Step Nat := ⟨"t", fun _ => Except.error "boom"⟩

/-- Concrete clean step with the source pipeline's first id `"parse-request"`. -/
def exStepParse : Step Nat := ⟨"parse-request", fun v => Except.ok ⟨v + 1, false, none⟩⟩

/-- Concrete already-completed stored state used to exercise the resume
precondition. -/
def exCompletedState : WorkflowState Nat :=
  { runId := "run-4"
    status := Status.completed
    currentStep := "b"
    stepData := []
    inputData := 0
    suspendReason := none }

/-- Concrete stored state suspended at step `"s"` of `[exStepS, exStepA]`. -/
def exSuspendedState : WorkflowState Nat :=
  { runId := "run-3"
    status := Status.suspended
    currentStep := "s"
    stepData := [("s", 0)]
    inputData := 0
    suspendReason := some "needs review" }

/-- Concrete stored state suspended at the last step `"b"` of
`[exStepA, exStepB]`. -/
def exSuspLastState : WorkflowState Nat :=
  { runId := "run-9"
    status := Status.suspended
    currentStep := "b"
    stepData := [("a", 1), ("b", 2)]
    inputData := 0
    suspendReason := some "needs review" }

/-! Association-list facts about the `Record` model. -/

lemma setData_eq_append {V : Type} {m : List (String × V)} {k : String} {v : V}
    (h : k ∉ m.map Prod.fst) : setData m k v = m ++ [(k, v)] := by
  induction m with
  | nil => rfl
  | cons p rest ih =>
      obtain ⟨k', v'⟩ := p
      simp only [List.map_cons, List.mem_cons] at h
      push_neg at h
      simp only [setData, if_neg (fun hh : k' = k => h.1 hh.symm), List.cons_append,
        List.cons.injEq, true_and]
      exact ih h.2

lemma getData_append_right {V : Type} {m l : List (String × V)} {k : String}
    (h : k ∉ m.map Prod.fst) : getData (m ++ l) k = getData l k := by
  induction m with
  | nil => rfl
  | cons p rest ih =>
      obtain ⟨k', v'⟩ := p
      simp only [List.map_cons, List.mem_cons] at h
      push_neg at h
      simp only [List.cons_append, getData, if_neg (fun hh : k' = k => h.1 hh.symm)]
      exact ih h.2

lemma getData_singleton_self {V : Type} (k : String) (v : V) :
    getData [(k, v)] k = some v := by
  simp [getData]

lemma getData_eq_none {V : Type} {m : List (String × V)} {k : String}
    (h : k ∉ m.map Prod.fst) : getData m k = none := by
  induction m with
  | nil => rfl
  | cons p rest ih =>
      obtain ⟨k', v'⟩ := p
      simp only [List.map_cons, List.mem_cons] at h
      push_neg at h
      simp only [getData, if_neg (fun hh : k' = k => h.1 hh.symm)]
      exact ih h.2

/-! Facts about `findIndex` and `List.drop` used to resolve the resume
position. -/

lemma findIndex_append_cons {V : Type} {p : Step V → Bool} {pre post : List (Step V)}
    {s : Step V} (hpre : ∀ x ∈ pre, p x = false) (hs : p s = true) :
    findIndex p (pre ++ s :: post) = some pre.length := by
  induction pre with
  | nil => simp [findIndex, hs]
  | cons x rest ih =>
      have hx := hpre x (List.mem_cons_self x rest)
      have ih' := ih (fun y hy => hpre y (List.mem_cons_of_mem x hy))
      simp [findIndex, hx, ih']

lemma drop_length_succ_append {α : Type} (pre : List α) (s : α) (post : List α) :
    (pre ++ s :: post).drop (pre.length + 1) = post := by
  induction pre with
  | nil => simp
  | cons x rest ih => simp [ih]

/-! Unfolding lemmas for the terminal branches of the step loop. -/

lemma stepLoop_nil {V : Type} (runId : String) (input : V) (st : WorkflowState V)
    (store : Store V) :
    stepLoop runId [] input st store =
      (Except.ok (RunOutcome.completed input), { st with status := Status.completed },
        saveWorkflowState store { st with status := Status.completed }) := rfl

lemma stepLoop_cons_error {V : Type} {s : Step V} {input : V} {e : String}
    (he : s.execute input = Except.error e) (runId : String) (post : List (Step V))
    (st : WorkflowState V) (store : Store V) :
    stepLoop runId (s :: post) input st store =
      (Except.error e, { st with currentStep := s.id, status := Status.failed },
        saveWorkflowState store { st with currentStep := s.id, status := Status.failed }) := by
  simp [stepLoop, he]

lemma stepLoop_cons_suspend {V : Type} {s : Step V} {input : V} {r : StepResult V}
    (hr : s.execute input = Except.ok r) (hsus : r.suspend = true) (runId : String)
    (post : List (Step V)) (st : WorkflowState V) (store : Store V) :
    stepLoop runId (s :: post) input st store =
      (Except.ok (RunOutcome.suspended r.reason runId s.id),
        { st with
          currentStep := s.id
          stepData := setData st.stepData s.id r.output
          status := Status.suspended
          suspendReason := r.reason },
        saveWorkflowState store
          { st with
            currentStep := s.id
            stepData := setData st.stepData s.id r.output
            status := Status.suspended
            suspendReason := r.reason }) := by
  simp [stepLoop, hr, hsus]

lemma stepLoop_cons_continue {V : Type} {s : Step V} {input : V} {r : StepResult V}
    (hr : s.execute input = Except.ok r) (hsus : r.suspend = false) (runId : String)
    (rest : List (Step V)) (st : WorkflowState V) (store : Store V) :
    stepLoop runId (s :: rest) input st store =
      stepLoop runId rest r.output
        { st with
          currentStep := s.id
          stepData := setData st.stepData s.id r.output }
        store := by
  simp [stepLoop, hr, hsus]

/-! Contract facts about the concrete example steps. -/

lemma exStepA_clean : CleanStep exStepA := fun v => ⟨⟨v + 1, false, none⟩, rfl, rfl⟩

lemma exStepB_clean : CleanStep exStepB := fun v => ⟨⟨v * 2, false, none⟩, rfl, rfl⟩

lemma exStepS_suspending : SuspendingStep exStepS :=
  fun v => ⟨⟨v, true, some "needs review"⟩, rfl, rfl⟩

lemma exStepU_suspending : SuspendingStep exStepU :=
  fun v => ⟨⟨v, true, some "needs approval"⟩, rfl, rfl⟩

lemma exStepT_throwing : ThrowingStep exStepT := fun _ => ⟨"boom", rfl⟩

/-- Running a prefix `xs` of clean steps (never throwing, never suspending,
ids distinct and fresh for the current `stepData`) never saves and never
terminates: for every continuation `ys` and store, the loop over `xs ++ ys`
equals the loop over `ys` started at the accumulated output and state, which
extends `stepData` by exactly one entry per step of `xs` and leaves every
other field unchanged. -/
lemma stepLoop_clean_chunk {V : Type} (runId : String) :
    ∀ (xs : List (Step V)) (input : V) (st : WorkflowState V),
      (∀ s ∈ xs, CleanStep s) →
      ((xs.map Step.id).Nodup) →
      (∀ s ∈ xs, s.id ∉ st.stepData.map Prod.fst) →
      ∃ (out : V) (st' : WorkflowState V) (pairs : List (String × V)),
        (∀ (ys : List (Step V)) (store : Store V),
          stepLoop runId (xs ++ ys) input st store = stepLoop runId ys out st' store) ∧
        st'.runId = st.runId ∧
        st'.status = st.status ∧
        st'.suspendReason = st.suspendReason ∧
        st'.inputData = st.inputData ∧
        pairs.map Prod.fst = xs.map Step.id ∧
        st'.stepData = st.stepData ++ pairs ∧
        (xs = [] → out = input ∧ st' = st) := by
  intro xs
  induction xs with
  | nil =>
      intro input st _ _ _
      exact ⟨input, st, [], fun ys store => by simp, rfl, rfl, rfl, rfl, rfl,
        by simp, fun _ => ⟨rfl, rfl⟩⟩
  | cons x xs ih =>
      intro input st hclean hnodup hfresh
      obtain ⟨r, hr, hsus⟩ := hclean x (List.mem_cons_self x xs) input
      have hxfresh : x.id ∉ st.stepData.map Prod.fst := hfresh x (List.mem_cons_self x xs)
      have hset : setData st.stepData x.id r.output = st.stepData ++ [(x.id, r.output)] :=
        setData_eq_append hxfresh
      simp only [List.map_cons, List.nodup_cons] at hnodup
      obtain ⟨hxnotin, hnodup'⟩ := hnodup
      have hfresh₂ : ∀ s ∈ xs,
          s.id ∉ (setData st.stepData x.id r.output).map Prod.fst := by
        intro s hs
        rw [hset]
        simp only [List.map_append, List.mem_append, List.map_cons, List.map_nil,
          List.mem_singleton]
        rintro (h1 | h2)
        · exact hfresh s (List.mem_cons_of_mem x hs) h1
        · exact hxnotin (h2 ▸ List.mem_map_of_mem Step.id hs)
      obtain ⟨out, st', pairs, hys, hrun, hstat, hreason, hinput, hkeys, hdata, -⟩ :=
        ih r.output
          { st with
            currentStep := x.id
            stepData := setData st.stepData x.id r.output }
          (fun s hs => hclean s (List.mem_cons_of_mem x hs)) hnodup' hfresh₂
      refine ⟨out, st', (x.id, r.output) :: pairs, ?_, hrun, hstat, hreason, hinput,
        ?_, ?_, ?_⟩
      · intro ys store
        rw [List.cons_append, stepLoop_cons_continue hr hsus, hys]
      · simp [hkeys]
      · rw [hdata]
        show setData st.stepData x.id r.output ++ pairs = _
        rw [hset, List.append_assoc, List.singleton_append]
      · intro h
        exact absurd h (List.cons_ne_nil x xs)

/-- C1: for every pipeline of N steps in which no step's result has `suspend`
set to true, `launch` executes the steps in order, feeding each step's output
as the next step's input, and returns a Completed outcome whose result equals
the last step's output, with `stepData` containing exactly N entries, one per
step id, and the stored status set to `completed`. -/
theorem C1_sequential_completion {V : Type} (sts : List (Step V)) (input : V)
    (runId : String) (store : Store V)
    (hne : sts ≠ [])
    (hnodup : (sts.map Step.id).Nodup)
    (hclean : ∀ s ∈ sts, CleanStep s) :
    ∃ (result : V) (st' : WorkflowState V),
      (launchWorkflow sts input runId store).1 =
        Except.ok (RunOutcome.completed result) ∧
      (launchWorkflow sts input runId store).2.2 runId = some st' ∧
      st'.status = Status.completed ∧
      st'.stepData.map Prod.fst = sts.map Step.id ∧
      st'.stepData.length = sts.length ∧
      getData st'.stepData (sts.getLast hne).id = some result := by
  have hdec : sts.dropLast ++ [sts.getLast hne] = sts := List.dropLast_append_getLast hne
  have hmap : sts.map Step.id = sts.dropLast.map Step.id ++ [(sts.getLast hne).id] := by
    conv_lhs => rw [← hdec]
    simp
  rw [hmap] at hnodup
  rw [List.nodup_append] at hnodup
  obtain ⟨hnodup₁, -, hdisj⟩ := hnodup
  have hlastfresh : (sts.getLast hne).id ∉ sts.dropLast.map Step.id := by
    intro hmem
    exact hdisj hmem (List.mem_singleton_self _)
  obtain ⟨out, st', pairs, hys, hrun, hstat, hreason, hinput, hkeys, hdata, -⟩ :=
    stepLoop_clean_chunk runId sts.dropLast input (initState input runId)
      (fun s hs => hclean s (List.dropLast_subset sts hs)) hnodup₁
      (fun s _ => by simp [initState])
  obtain ⟨r, hr, hsus⟩ := hclean (sts.getLast hne) (List.getLast_mem hne) out
  have hpairsfresh : (sts.getLast hne).id ∉ pairs.map Prod.fst := by
    rw [hkeys]; exact hlastfresh
  have hdata' : st'.stepData = pairs := by
    rw [hdata]; simp [initState]
  have hloop : launchWorkflow sts input runId store =
      stepLoop runId [sts.getLast hne] out st'
        (saveWorkflowState store (initState input runId)) := by
    show stepLoop runId sts input (initState input runId)
        (saveWorkflowState store (initState input runId)) = _
    conv_lhs => rw [← hdec]
    exact hys [sts.getLast hne] (saveWorkflowState store (initState input runId))
  rw [stepLoop_cons_continue hr hsus, stepLoop_nil] at hloop
  have hsetlast : setData st'.stepData (sts.getLast hne).id r.output =
      pairs ++ [((sts.getLast hne).id, r.output)] := by
    rw [hdata']
    exact setData_eq_append hpairsfresh
  refine ⟨r.output,
    { st' with
      currentStep := (sts.getLast hne).id
      stepData := setData st'.stepData (sts.getLast hne).id r.output
      status := Status.completed }, by rw [hloop], ?_, rfl, ?_, ?_, ?_⟩
  · rw [hloop]
    show saveWorkflowState _ _ runId = _
    have hid : st'.runId = runId := by
      rw [hrun]; rfl
    simp [saveWorkflowState, hid]
  · show (setData st'.stepData (sts.getLast hne).id r.output).map Prod.fst = _
    rw [hsetlast, hmap]
    simp [hkeys]
  · show (setData st'.stepData (sts.getLast hne).id r.output).length = _
    rw [hsetlast]
    have hlen : pairs.length = sts.dropLast.length := by
      have := congrArg List.length hkeys
      simpa using this
    simp only [List.length_append, List.length_singleton, hlen]
    conv_rhs => rw [← hdec]
    simp
  · show getData (setData st'.stepData (sts.getLast hne).id r.output) _ = _
    rw [hsetlast, getData_append_right hpairsfresh, getData_singleton_self]

/-- C1 witness: the two-step clean pipeline `[exStepA, exStepB]` launched on
input `0` completes with both hypotheses discharged concretely. -/
theorem C1_sequential_completion_witness :
    ∃ (result : Nat) (st' : WorkflowState Nat),
      (launchWorkflow [exStepA, exStepB] 0 "run-1" (emptyStore Nat)).1 =
        Except.ok (RunOutcome.completed result) ∧
      (launchWorkflow [exStepA, exStepB] 0 "run-1" (emptyStore Nat)).2.2 "run-1" =
        some st' ∧
      st'.status = Status.completed ∧
      st'.stepData.map Prod.fst = [exStepA, exStepB].map Step.id ∧
      st'.stepData.length = ([exStepA, exStepB] : List (Step Nat)).length ∧
      getData st'.stepData (([exStepA, exStepB] : List (Step Nat)).getLast
        (by simp)).id = some result :=
  C1_sequential_completion [exStepA, exStepB] 0 "run-1" (emptyStore Nat)
    (by simp) (by decide)
    (by
      intro s hs
      simp only [List.mem_cons, List.not_mem_nil, or_false] at hs
      rcases hs with h | h
      · exact h ▸ exStepA_clean
      · exact h ▸ exStepB_clean)

/-- C2: for every pipeline and every step whose result has `suspend` set to
true (clean steps before it), `launch` stores that step's output into
`stepData`, sets the stored status to `suspended` with `suspendReason` equal
to the step's reason, persists the state, and returns a Suspended outcome
carrying the `runId`, the reason, and that step's id, without executing any
step positioned after the suspending step (the run is identical to the run
of the pipeline truncated right after the suspending step). -/
theorem C2_suspension_stops_execution {V : Type} (pre post : List (Step V))
    (s : Step V) (input : V) (runId : String) (store : Store V)
    (hnodup : ((pre ++ s :: post).map Step.id).Nodup)
    (hpre : ∀ x ∈ pre, CleanStep x)
    (hs : SuspendingStep s) :
    ∃ (r : StepResult V) (st' : WorkflowState V),
      r.suspend = true ∧ (∃ v, s.execute v = Except.ok r) ∧
      (launchWorkflow (pre ++ s :: post) input runId store).1 =
        Except.ok (RunOutcome.suspended r.reason runId s.id) ∧
      (launchWorkflow (pre ++ s :: post) input runId store).2.2 runId = some st' ∧
      st'.status = Status.suspended ∧
      st'.suspendReason = r.reason ∧
      st'.currentStep = s.id ∧
      getData st'.stepData s.id = some r.output ∧
      launchWorkflow (pre ++ s :: post) input runId store =
        launchWorkflow (pre ++ [s]) input runId store := by
  simp only [List.map_append, List.map_cons, List.nodup_append] at hnodup
  obtain ⟨hnodup₁, -, hdisj⟩ := hnodup
  have hsfresh : s.id ∉ pre.map Step.id := by
    intro hmem
    exact hdisj hmem (List.mem_cons_self _ _)
  obtain ⟨out, st', pairs, hys, hrun, hstat, hreason, hinput, hkeys, hdata, -⟩ :=
    stepLoop_clean_chunk runId pre input (initState input runId) hpre hnodup₁
      (fun x _ => by simp [initState])
  obtain ⟨r, hr, hsus⟩ := hs out
  have hdata' : st'.stepData = pairs := by
    rw [hdata]; simp [initState]
  have hpairsfresh : s.id ∉ pairs.map Prod.fst := by
    rw [hkeys]; exact hsfresh
  have hsetS : setData st'.stepData s.id r.output =
      pairs ++ [(s.id, r.output)] := by
    rw [hdata']
    exact setData_eq_append hpairsfresh
  have hid : st'.runId = runId := by
    rw [hrun]; rfl
  have hloop : ∀ ys, launchWorkflow (pre ++ ys) input runId store =
      stepLoop runId ys out st' (saveWorkflowState store (initState input runId)) :=
    fun ys => hys ys (saveWorkflowState store (initState input runId))
  have hloop₁ := hloop (s :: post)
  have hloop₂ := hloop [s]
  rw [stepLoop_cons_suspend hr hsus] at hloop₁ hloop₂
  refine ⟨r,
    { st' with
      currentStep := s.id
      stepData := setData st'.stepData s.id r.output
      status := Status.suspended
      suspendReason := r.reason },
    hsus, ⟨out, hr⟩, by rw [hloop₁], ?_, rfl, rfl, rfl, ?_, ?_⟩
  · rw [hloop₁]
    show saveWorkflowState _ _ runId = _
    simp [saveWorkflowState, hid]
  · show getData (setData st'.stepData s.id r.output) s.id = some r.output
    rw [hsetS, getData_append_right hpairsfresh, getData_singleton_self]
  · rw [hloop₁, hloop₂]

/-- C2 witness: pipeline `[exStepA, exStepS, exStepB]` where `exStepS` always
suspends; launching on input `0` suspends at `"s"` without running `exStepB`. -/
theorem C2_suspension_stops_execution_witness :
    ∃ (r : StepResult Nat) (st' : WorkflowState Nat),
      r.suspend = true ∧ (∃ v, exStepS.execute v = Except.ok r) ∧
      (launchWorkflow ([exStepA] ++ exStepS :: [exStepB]) 0 "run-2"
        (emptyStore Nat)).1 =
        Except.ok (RunOutcome.suspended r.reason "run-2" exStepS.id) ∧
      (launchWorkflow ([exStepA] ++ exStepS :: [exStepB]) 0 "run-2"
        (emptyStore Nat)).2.2 "run-2" = some st' ∧
      st'.status = Status.suspended ∧
      st'.suspendReason = r.reason ∧
      st'.currentStep = exStepS.id ∧
      getData st'.stepData exStepS.id = some r.output ∧
      launchWorkflow ([exStepA] ++ exStepS :: [exStepB]) 0 "run-2"
        (emptyStore Nat) =
        launchWorkflow ([exStepA] ++ [exStepS]) 0 "run-2" (emptyStore Nat) :=
  C2_suspension_stops_execution [exStepA] [exStepB] exStepS 0 "run-2"
    (emptyStore Nat) (by decide)
    (by
      intro x hx
      simp only [List.mem_singleton] at hx
      exact hx ▸ exStepA_clean)
    exStepS_suspending

/-- C4: for every runId stored with status completed, failed, or running, and
for every runId absent from the store, `resume` fails with the invalid-state
error and returns the store untouched (so the stored RunState, if any, is
unchanged). -/
theorem C4_resume_precondition {V : Type} (sts : List (Step V)) (runId : String)
    (resumeData : V) (store : Store V)
    (h : store runId = none ∨
      ∃ st0, store runId = some st0 ∧
        (st0.status = Status.completed ∨ st0.status = Status.failed ∨
          st0.status = Status.running)) :
    resumeWorkflow sts runId resumeData store =
      (Except.error ("No suspended workflow found for runId: " ++ runId), store) := by
  rcases h with h | ⟨st0, h, hstat⟩
  · simp [resumeWorkflow, loadWorkflowState, h]
  · have hns : ¬ st0.status = Status.suspended := by
      rcases hstat with h' | h' | h' <;> simp [h']
    simp [resumeWorkflow, loadWorkflowState, h, hns]

/-- C4 witness: a store holding a completed run under `"run-4"`; resuming it
fails and returns the store unchanged. -/
theorem C4_resume_precondition_witness :
    ((saveWorkflowState (emptyStore Nat) exCompletedState) "run-4" =
      some exCompletedState ∧ exCompletedState.status = Status.completed) ∧
    resumeWorkflow [exStepA, exStepB] "run-4" 5
      (saveWorkflowState (emptyStore Nat) exCompletedState) =
      (Except.error ("No suspended workflow found for runId: " ++ "run-4"),
        saveWorkflowState (emptyStore Nat) exCompletedState) :=
  ⟨⟨by simp [saveWorkflowState, exCompletedState], rfl⟩,
    C4_resume_precondition [exStepA, exStepB] "run-4" 5 _
      (Or.inr ⟨exCompletedState,
        by simp [saveWorkflowState, exCompletedState], Or.inl rfl⟩)⟩

/-- C10: `launch` never consults the store for an existing entry — its result
is identical when the runId's prior entry is erased — and the fresh state it
unconditionally saves over the prior entry has status running, empty
`stepData`, and `currentStep` the literal `"parse-request"`, the id of the
source pipeline's first step. -/
theorem C10_launch_overwrites {V : Type} (sts : List (Step V)) (input : V)
    (runId : String) (store : Store V) (prior : WorkflowState V)
    (_hprior : store runId = some prior)
    (hfirst : (sts.head?).map Step.id = some "parse-request") :
    (saveWorkflowState store (initState input runId)) runId =
      some (initState input runId) ∧
    (initState input runId).status = Status.running ∧
    (initState input runId).stepData = ([] : List (String × V)) ∧
    (sts.head?).map Step.id = some (initState input runId).currentStep ∧
    launchWorkflow sts input runId store =
      stepLoop runId sts input (initState input runId)
        (saveWorkflowState store (initState input runId)) ∧
    launchWorkflow sts input runId store =
      launchWorkflow sts input runId (fun k => if k = runId then none else store k) := by
  refine ⟨by simp [saveWorkflowState, initState], rfl, rfl, hfirst, rfl, ?_⟩
  have hsave : saveWorkflowState store (initState input runId) =
      saveWorkflowState (fun k => if k = runId then none else store k)
        (initState input runId) := by
    funext k
    by_cases hk : k = runId
    · simp [saveWorkflowState, initState, hk]
    · simp [saveWorkflowState, initState, hk]
  show stepLoop runId sts input (initState input runId)
      (saveWorkflowState store (initState input runId)) =
    stepLoop runId sts input (initState input runId)
      (saveWorkflowState (fun k => if k = runId then none else store k)
        (initState input runId))
  rw [hsave]

/-- C10 witness: a store already holding `"run-10"` and a pipeline headed by
the `"parse-request"` step. -/
theorem C10_launch_overwrites_witness :
    (saveWorkflowState (saveWorkflowState (emptyStore Nat) (initState 7 "run-10"))
      (initState 3 "run-10")) "run-10" = some (initState 3 "run-10") ∧
    (initState 3 "run-10").status = Status.running ∧
    (initState 3 "run-10").stepData = ([] : List (String × Nat)) ∧
    (([exStepParse, exStepB] : List (Step Nat)).head?).map Step.id =
      some (initState 3 "run-10").currentStep ∧
    launchWorkflow [exStepParse, exStepB] 3 "run-10"
      (saveWorkflowState (emptyStore Nat) (initState 7 "run-10")) =
      stepLoop "run-10" [exStepParse, exStepB] 3 (initState 3 "run-10")
        (saveWorkflowState
          (saveWorkflowState (emptyStore Nat) (initState 7 "run-10"))
          (initState 3 "run-10")) ∧
    launchWorkflow [exStepParse, exStepB] 3 "run-10"
      (saveWorkflowState (emptyStore Nat) (initState 7 "run-10")) =
      launchWorkflow [exStepParse, exStepB] 3 "run-10"
        (fun k => if k = "run-10" then none
          else (saveWorkflowState (emptyStore Nat) (initState 7 "run-10")) k) :=
  C10_launch_overwrites [exStepParse, exStepB] 3 "run-10"
    (saveWorkflowState (emptyStore Nat) (initState 7 "run-10"))
    (initState 7 "run-10") (by simp [saveWorkflowState, initState]) rfl

/-- C3: `resume` on a stored suspended run sets the status to running,
persists it, and continues execution with exactly the steps positionally
after the stored `currentStep`, feeding `resumeData` as the next step's
input; no step with the suspended step's id is among the continued steps. -/
theorem C3_resume_advances_past {V : Type} (pre post : List (Step V)) (c : Step V)
    (runId : String) (resumeData : V) (store : Store V) (st0 : WorkflowState V)
    (hload : store runId = some st0)
    (hstat : st0.status = Status.suspended)
    (hcur : c.id = st0.currentStep)
    (hnodup : ((pre ++ c :: post).map Step.id).Nodup) :
    (saveWorkflowState store { st0 with status := Status.running }) st0.runId =
      some { st0 with status := Status.running } ∧
    resumeWorkflow (pre ++ c :: post) runId resumeData store =
      ((stepLoop runId post resumeData { st0 with status := Status.running }
          (saveWorkflowState store { st0 with status := Status.running })).1,
       (stepLoop runId post resumeData { st0 with status := Status.running }
          (saveWorkflowState store { st0 with status := Status.running })).2.2) ∧
    ∀ x ∈ post, x.id ≠ st0.currentStep := by
  simp only [List.map_append, List.map_cons, List.nodup_append, List.nodup_cons] at hnodup
  obtain ⟨-, ⟨hcpost, -⟩, hdisj⟩ := hnodup
  have hprefalse : ∀ x ∈ pre, (x.id == st0.currentStep) = false := by
    intro x hx
    rw [beq_eq_false_iff_ne]
    intro hxc
    exact hdisj (List.mem_map_of_mem Step.id hx) (by
      rw [hxc, ← hcur]
      exact List.mem_cons_self _ _)
  have hctrue : (c.id == st0.currentStep) = true := by
    rw [hcur, beq_self_eq_true]
  have hfind : findIndex (fun s => s.id == st0.currentStep) (pre ++ c :: post) =
      some pre.length := findIndex_append_cons hprefalse hctrue
  have hdrop : (pre ++ c :: post).drop (pre.length + 1) = post :=
    drop_length_succ_append pre c post
  refine ⟨by simp [saveWorkflowState], ?_, ?_⟩
  · simp only [resumeWorkflow, loadWorkflowState, hload, hstat, if_pos rfl]
    simp [hfind, hdrop]
  · intro x hx hxc
    apply hcpost
    rw [← hcur] at hxc
    exact hxc ▸ List.mem_map_of_mem Step.id hx

/-- C3 witness: resuming the run suspended at step `"s"` of
`[exStepS, exStepA]` with resume data `5` continues exactly with `[exStepA]`. -/
theorem C3_resume_advances_past_witness :
    (saveWorkflowState (saveWorkflowState (emptyStore Nat) exSuspendedState)
      { exSuspendedState with status := Status.running }) exSuspendedState.runId =
      some { exSuspendedState with status := Status.running } ∧
    resumeWorkflow ([] ++ exStepS :: [exStepA]) "run-3" 5
      (saveWorkflowState (emptyStore Nat) exSuspendedState) =
      ((stepLoop "run-3" [exStepA] 5 { exSuspendedState with status := Status.running }
          (saveWorkflowState (saveWorkflowState (emptyStore Nat) exSuspendedState)
            { exSuspendedState with status := Status.running })).1,
       (stepLoop "run-3" [exStepA] 5 { exSuspendedState with status := Status.running }
          (saveWorkflowState (saveWorkflowState (emptyStore Nat) exSuspendedState)
            { exSuspendedState with status := Status.running })).2.2) ∧
    ∀ x ∈ [exStepA], x.id ≠ exSuspendedState.currentStep :=
  C3_resume_advances_past [] [exStepA] exStepS "run-3" 5
    (saveWorkflowState (emptyStore Nat) exSuspendedState) exSuspendedState
    (by simp [saveWorkflowState, exSuspendedState]) rfl rfl (by decide)

/-- C9: `resume` of a run suspended at the pipeline's last step executes zero
steps and returns a Completed outcome whose result is the supplied
`resumeData` itself; the stored state is the suspended state with only its
status changed to completed (in particular `stepData` is unchanged). -/
theorem C9_resume_at_last_step {V : Type} (pre : List (Step V)) (c : Step V)
    (runId : String) (resumeData : V) (store : Store V) (st0 : WorkflowState V)
    (hload : store runId = some st0)
    (hrid : st0.runId = runId)
    (hstat : st0.status = Status.suspended)
    (hcur : c.id = st0.currentStep)
    (hnodup : ((pre ++ [c]).map Step.id).Nodup) :
    resumeWorkflow (pre ++ [c]) runId resumeData store =
      (Except.ok (RunOutcome.completed resumeData),
        saveWorkflowState (saveWorkflowState store { st0 with status := Status.running })
          { st0 with status := Status.completed }) ∧
    (resumeWorkflow (pre ++ [c]) runId resumeData store).2 runId =
      some { st0 with status := Status.completed } := by
  simp only [List.map_append, List.map_cons, List.map_nil, List.nodup_append] at hnodup
  obtain ⟨-, -, hdisj⟩ := hnodup
  have hprefalse : ∀ x ∈ pre, (x.id == st0.currentStep) = false := by
    intro x hx
    rw [beq_eq_false_iff_ne]
    intro hxc
    exact hdisj (List.mem_map_of_mem Step.id hx) (by
      rw [hxc, ← hcur]
      exact List.mem_singleton_self _)
  have hctrue : (c.id == st0.currentStep) = true := by
    rw [hcur, beq_self_eq_true]
  have hfind : findIndex (fun s => s.id == st0.currentStep) (pre ++ [c]) =
      some pre.length := findIndex_append_cons hprefalse hctrue
  have hdrop : (pre ++ [c]).drop (pre.length + 1) = [] :=
    drop_length_succ_append pre c []
  have hmain : resumeWorkflow (pre ++ [c]) runId resumeData store =
      (Except.ok (RunOutcome.completed resumeData),
        saveWorkflowState (saveWorkflowState store { st0 with status := Status.running })
          { st0 with status := Status.completed }) := by
    simp only [resumeWorkflow, loadWorkflowState, hload, hstat, if_pos rfl]
    simp [hfind, hdrop, stepLoop_nil]
  refine ⟨hmain, ?_⟩
  rw [hmain]
  show saveWorkflowState _ _ runId = _
  simp [saveWorkflowState, hrid]

/-- C9 witness: the run suspended at step `"b"`, the last step of
`[exStepA, exStepB]`, resumed with data `42`. -/
theorem C9_resume_at_last_step_witness :
    resumeWorkflow ([exStepA] ++ [exStepB]) "run-9" 42
      (saveWorkflowState (emptyStore Nat) exSuspLastState) =
      (Except.ok (RunOutcome.completed 42),
        saveWorkflowState
          (saveWorkflowState (saveWorkflowState (emptyStore Nat) exSuspLastState)
            { exSuspLastState with status := Status.running })
          { exSuspLastState with status := Status.completed }) ∧
    (resumeWorkflow ([exStepA] ++ [exStepB]) "run-9" 42
      (saveWorkflowState (emptyStore Nat) exSuspLastState)).2 "run-9" =
      some { exSuspLastState with status := Status.completed } :=
  C9_resume_at_last_step [exStepA] exStepB "run-9" 42
    (saveWorkflowState (emptyStore Nat) exSuspLastState) exSuspLastState
    (by simp [saveWorkflowState, exSuspLastState]) rfl rfl rfl (by decide)

/-- Running clean steps `mid` and then a throwing step `s` fails: the loop
records exactly the outputs of `mid`, sets status failed with `currentStep`
at the throwing step, saves, and propagates the error; steps after `s` leave
no trace. -/
lemma stepLoop_throw_tail {V : Type} (runId : String) (mid post : List (Step V))
    (s : Step V) (input : V) (st : WorkflowState V) (store : Store V)
    (hmid : ∀ x ∈ mid, CleanStep x)
    (hnodupmid : (mid.map Step.id).Nodup)
    (hfresh : ∀ x ∈ mid, x.id ∉ st.stepData.map Prod.fst)
    (hthrow : ThrowingStep s) :
    ∃ (e : String) (st' : WorkflowState V),
      stepLoop runId (mid ++ s :: post) input st store =
        (Except.error e, st', saveWorkflowState store st') ∧
      st'.runId = st.runId ∧
      st'.status = Status.failed ∧
      st'.currentStep = s.id ∧
      st'.stepData.map Prod.fst = st.stepData.map Prod.fst ++ mid.map Step.id := by
  obtain ⟨out, stM, pairs, hys, hrun, -, -, -, hkeys, hdata, -⟩ :=
    stepLoop_clean_chunk runId mid input st hmid hnodupmid hfresh
  obtain ⟨e, he⟩ := hthrow out
  refine ⟨e, { stM with currentStep := s.id, status := Status.failed }, ?_, hrun,
    rfl, rfl, ?_⟩
  · rw [hys (s :: post) store, stepLoop_cons_error he]
  · show stM.stepData.map Prod.fst = _
    rw [hdata]
    simp [hkeys]

/-- C5: if a step's `execute` throws during `launch` or during `resume`, the
runner sets the stored status to failed, persists it, and propagates the
error; `stepData` then contains exactly the outputs of the steps completed
before the throwing step (for resume: the previously stored entries plus the
newly completed ones) and neither the throwing step's output nor any later
step's output. -/
theorem C5_failure_isolation {V : Type}
    (pre post : List (Step V)) (s : Step V) (input : V) (runId : String)
    (store : Store V)
    (hnodup : ((pre ++ s :: post).map Step.id).Nodup)
    (hpre : ∀ x ∈ pre, CleanStep x)
    (hthrow : ThrowingStep s)
    (pre₂ mid post₂ : List (Step V)) (c : Step V) (runId₂ : String)
    (store₂ : Store V) (st0 : WorkflowState V) (resumeData : V)
    (hload : store₂ runId₂ = some st0)
    (hrid : st0.runId = runId₂)
    (hstat : st0.status = Status.suspended)
    (hcur : c.id = st0.currentStep)
    (hnodup₂ : ((pre₂ ++ c :: (mid ++ s :: post₂)).map Step.id).Nodup)
    (hmid : ∀ x ∈ mid, CleanStep x)
    (hfresh₂ : ∀ x ∈ mid ++ s :: post₂, x.id ∉ st0.stepData.map Prod.fst) :
    (∃ (e : String) (st' : WorkflowState V),
      (launchWorkflow (pre ++ s :: post) input runId store).1 = Except.error e ∧
      (launchWorkflow (pre ++ s :: post) input runId store).2.2 runId = some st' ∧
      st'.status = Status.failed ∧
      st'.currentStep = s.id ∧
      st'.stepData.map Prod.fst = pre.map Step.id ∧
      getData st'.stepData s.id = none ∧
      (∀ x ∈ post, getData st'.stepData x.id = none)) ∧
    (∃ (e : String) (st'' : WorkflowState V),
      (resumeWorkflow (pre₂ ++ c :: (mid ++ s :: post₂)) runId₂ resumeData store₂).1 =
        Except.error e ∧
      (resumeWorkflow (pre₂ ++ c :: (mid ++ s :: post₂)) runId₂ resumeData store₂).2
        runId₂ = some st'' ∧
      st''.status = Status.failed ∧
      st''.currentStep = s.id ∧
      st''.stepData.map Prod.fst = st0.stepData.map Prod.fst ++ mid.map Step.id ∧
      getData st''.stepData s.id = none ∧
      (∀ x ∈ post₂, getData st''.stepData x.id = none)) := by
  constructor
  · -- launch scenario
    simp only [List.map_append, List.map_cons, List.nodup_append, List.nodup_cons]
      at hnodup
    obtain ⟨hnp, -, hdisj⟩ := hnodup
    have hsid : s.id ∉ pre.map Step.id := fun hmem =>
      hdisj hmem (List.mem_cons_self _ _)
    obtain ⟨e, st', heq, hrun, hst, hcs, hkeys⟩ :=
      stepLoop_throw_tail runId pre post s input (initState input runId)
        (saveWorkflowState store (initState input runId)) hpre hnp
        (fun x _ => by simp [initState]) hthrow
    have hkeys' : st'.stepData.map Prod.fst = pre.map Step.id := by
      rw [hkeys]; simp [initState]
    have hlaunch : launchWorkflow (pre ++ s :: post) input runId store =
        (Except.error e, st',
          saveWorkflowState (saveWorkflowState store (initState input runId)) st') :=
      heq
    have hid : st'.runId = runId := by
      rw [hrun]; rfl
    refine ⟨e, st', by rw [hlaunch], ?_, hst, hcs, hkeys', ?_, ?_⟩
    · rw [hlaunch]
      show saveWorkflowState _ _ runId = _
      simp [saveWorkflowState, hid]
    · exact getData_eq_none (by rw [hkeys']; exact hsid)
    · intro x hx
      refine getData_eq_none (by
        rw [hkeys']
        intro hmem
        exact hdisj hmem (List.mem_cons_of_mem _ (List.mem_map_of_mem Step.id hx)))
  · -- resume scenario
    simp only [List.map_append, List.map_cons, List.nodup_append, List.nodup_cons]
      at hnodup₂
    obtain ⟨-, ⟨-, hnmid, hnsp, hdisjmid⟩, hdisj₂⟩ := hnodup₂
    have hprefalse : ∀ x ∈ pre₂, (x.id == st0.currentStep) = false := by
      intro x hx
      rw [beq_eq_false_iff_ne]
      intro hxc
      exact hdisj₂ (List.mem_map_of_mem Step.id hx) (by
        rw [hxc, ← hcur]
        exact List.mem_cons_self _ _)
    have hctrue : (c.id == st0.currentStep) = true := by
      rw [hcur, beq_self_eq_true]
    have hfind : findIndex (fun t => t.id == st0.currentStep)
        (pre₂ ++ c :: (mid ++ s :: post₂)) = some pre₂.length :=
      findIndex_append_cons hprefalse hctrue
    have hdrop : (pre₂ ++ c :: (mid ++ s :: post₂)).drop (pre₂.length + 1) =
        mid ++ s :: post₂ := drop_length_succ_append pre₂ c (mid ++ s :: post₂)
    obtain ⟨e, st'', heq, hrun, hst, hcs, hkeys⟩ :=
      stepLoop_throw_tail runId₂ mid post₂ s resumeData
        { st0 with status := Status.running }
        (saveWorkflowState store₂ { st0 with status := Status.running })
        hmid hnmid
        (fun x hx => hfresh₂ x (List.mem_append_left _ hx)) hthrow
    have hres : resumeWorkflow (pre₂ ++ c :: (mid ++ s :: post₂)) runId₂
        resumeData store₂ =
        (Except.error e,
          saveWorkflowState
            (saveWorkflowState store₂ { st0 with status := Status.running }) st'') := by
      simp only [resumeWorkflow, loadWorkflowState, hload, hstat, if_pos rfl]
      simp [hfind, hdrop, heq]
    have hid : st''.runId = runId₂ := by
      rw [hrun]
      exact hrid
    have hkeys'' : st''.stepData.map Prod.fst =
        st0.stepData.map Prod.fst ++ mid.map Step.id := hkeys
    have hsid₂ : s.id ∉ st''.stepData.map Prod.fst := by
      rw [hkeys'']
      intro hmem
      rcases List.mem_append.mp hmem with h | h
      · exact hfresh₂ s (List.mem_append_right _ (List.mem_cons_self _ _)) h
      · exact hdisjmid h (List.mem_cons_self _ _)
    refine ⟨e, st'', by rw [hres], ?_, hst, hcs, hkeys'', getData_eq_none hsid₂, ?_⟩
    · rw [hres]
      show saveWorkflowState _ _ runId₂ = _
      simp [saveWorkflowState, hid]
    · intro x hx
      refine getData_eq_none (by
        rw [hkeys'']
        intro hmem
        rcases List.mem_append.mp hmem with h | h
        · exact hfresh₂ x
            (List.mem_append_right _ (List.mem_cons_of_mem _ hx)) h
        · exact hdisjmid h
            (List.mem_cons_of_mem _ (List.mem_map_of_mem Step.id hx)))

/-- C5 witness: step `"t"` throws as second step of a launch
(`[exStepA, exStepT, exStepB]` on input `0`) and as second continued step of a
resume of the run suspended at `"s"` (`[exStepS, exStepA, exStepT, exStepB]`
with resume data `5`). -/
theorem C5_failure_isolation_witness :
    (∃ (e : String) (st' : WorkflowState Nat),
      (launchWorkflow ([exStepA] ++ exStepT :: [exStepB]) 0 "run-5"
        (emptyStore Nat)).1 = Except.error e ∧
      (launchWorkflow ([exStepA] ++ exStepT :: [exStepB]) 0 "run-5"
        (emptyStore Nat)).2.2 "run-5" = some st' ∧
      st'.status = Status.failed ∧
      st'.currentStep = exStepT.id ∧
      st'.stepData.map Prod.fst = [exStepA].map Step.id ∧
      getData st'.stepData exStepT.id = none ∧
      (∀ x ∈ [exStepB], getData st'.stepData x.id = none)) ∧
    (∃ (e : String) (st'' : WorkflowState Nat),
      (resumeWorkflow ([] ++ exStepS :: ([exStepA] ++ exStepT :: [exStepB]))
        "run-3" 5 (saveWorkflowState (emptyStore Nat) exSuspendedState)).1 =
        Except.error e ∧
      (resumeWorkflow ([] ++ exStepS :: ([exStepA] ++ exStepT :: [exStepB]))
        "run-3" 5 (saveWorkflowState (emptyStore Nat) exSuspendedState)).2
        "run-3" = some st'' ∧
      st''.status = Status.failed ∧
      st''.currentStep = exStepT.id ∧
      st''.stepData.map Prod.fst =
        exSuspendedState.stepData.map Prod.fst ++ [exStepA].map Step.id ∧
      getData st''.stepData exStepT.id = none ∧
      (∀ x ∈ [exStepB], getData st''.stepData x.id = none)) :=
  C5_failure_isolation [exStepA] [exStepB] exStepT 0 "run-5" (emptyStore Nat)
    (by decide)
    (by
      intro x hx
      simp only [List.mem_singleton] at hx
      exact hx ▸ exStepA_clean)
    exStepT_throwing
    [] [exStepA] [exStepB] exStepS "run-3"
    (saveWorkflowState (emptyStore Nat) exSuspendedState) exSuspendedState 5
    (by simp [saveWorkflowState, exSuspendedState]) rfl rfl rfl
    (by decide)
    (by
      intro x hx
      simp only [List.mem_singleton] at hx
      exact hx ▸ exStepA_clean)
    (by decide)

/-- Resolving a resume call: once the stored state is suspended and the
pipeline splits as `pre ++ c :: rest` with `c` the suspended step (no earlier
step sharing its id), `resume` saves the running transition and runs the step
loop over `rest` with `resumeData` as first input. -/
lemma resumeWorkflow_unfold {V : Type} (pre rest : List (Step V)) (c : Step V)
    (runId : String) (resumeData : V) (store : Store V) (st0 : WorkflowState V)
    (hload : store runId = some st0)
    (hstat : st0.status = Status.suspended)
    (hcur : c.id = st0.currentStep)
    (hprefalse : ∀ x ∈ pre, x.id ≠ st0.currentStep) :
    resumeWorkflow (pre ++ c :: rest) runId resumeData store =
      ((stepLoop runId rest resumeData { st0 with status := Status.running }
          (saveWorkflowState store { st0 with status := Status.running })).1,
       (stepLoop runId rest resumeData { st0 with status := Status.running }
          (saveWorkflowState store { st0 with status := Status.running })).2.2) := by
  have hpre' : ∀ x ∈ pre, (x.id == st0.currentStep) = false := fun x hx =>
    beq_eq_false_iff_ne.mpr (hprefalse x hx)
  have hctrue : (c.id == st0.currentStep) = true := by
    rw [hcur, beq_self_eq_true]
  have hfind : findIndex (fun t => t.id == st0.currentStep) (pre ++ c :: rest) =
      some pre.length := findIndex_append_cons hpre' hctrue
  have hdrop : (pre ++ c :: rest).drop (pre.length + 1) = rest :=
    drop_length_succ_append pre c rest
  simp only [resumeWorkflow, loadWorkflowState, hload, hstat, if_pos rfl]
  simp [hfind, hdrop]

/-- A resume whose continued steps are clean ones `mid` followed by a
suspending step `s` suspends again at `s`, extending the stored `stepData` by
the outputs of `mid` and of `s`. -/
lemma resume_suspend_tail {V : Type} (pre mid post : List (Step V)) (c s : Step V)
    (runId : String) (resumeData : V) (store : Store V) (st0 : WorkflowState V)
    (hload : store runId = some st0)
    (hrid : st0.runId = runId)
    (hstat : st0.status = Status.suspended)
    (hcur : c.id = st0.currentStep)
    (hprefalse : ∀ x ∈ pre, x.id ≠ st0.currentStep)
    (hmid : ∀ x ∈ mid, CleanStep x)
    (hnodupmid : (mid.map Step.id).Nodup)
    (hfreshmid : ∀ x ∈ mid, x.id ∉ st0.stepData.map Prod.fst)
    (hsfresh : s.id ∉ st0.stepData.map Prod.fst)
    (hsmid : s.id ∉ mid.map Step.id)
    (hs : SuspendingStep s) :
    ∃ (r : StepResult V) (st' : WorkflowState V),
      resumeWorkflow (pre ++ c :: (mid ++ s :: post)) runId resumeData store =
        (Except.ok (RunOutcome.suspended r.reason runId s.id),
          saveWorkflowState
            (saveWorkflowState store { st0 with status := Status.running }) st') ∧
      r.suspend = true ∧
      st'.runId = runId ∧
      st'.status = Status.suspended ∧
      st'.currentStep = s.id ∧
      st'.suspendReason = r.reason ∧
      st'.stepData.map Prod.fst =
        (st0.stepData.map Prod.fst ++ mid.map Step.id) ++ [s.id] := by
  rw [resumeWorkflow_unfold pre (mid ++ s :: post) c runId resumeData store st0
    hload hstat hcur hprefalse]
  obtain ⟨out, stM, pairs, hys, hrun, -, -, -, hkeys, hdata, -⟩ :=
    stepLoop_clean_chunk runId mid resumeData { st0 with status := Status.running }
      hmid hnodupmid hfreshmid
  obtain ⟨r, hr, hsus⟩ := hs out
  have hkeysM : stM.stepData.map Prod.fst =
      st0.stepData.map Prod.fst ++ mid.map Step.id := by
    rw [hdata]
    simp [hkeys]
  have hsfreshM : s.id ∉ stM.stepData.map Prod.fst := by
    rw [hkeysM]
    intro hmem
    rcases List.mem_append.mp hmem with h | h
    · exact hsfresh h
    · exact hsmid h
  refine ⟨r,
    { stM with
      currentStep := s.id
      stepData := setData stM.stepData s.id r.output
      status := Status.suspended
      suspendReason := r.reason }, ?_, hsus, ?_, rfl, rfl, rfl, ?_⟩
  · rw [hys (s :: post) _, stepLoop_cons_suspend hr hsus]
  · show stM.runId = runId
    rw [hrun]
    exact hrid
  · show (setData stM.stepData s.id r.output).map Prod.fst = _
    rw [setData_eq_append hsfreshM]
    simp [hkeysM, List.append_assoc]

/-- A resume whose continued steps are all clean completes, extending the
stored `stepData` by exactly their outputs. -/
lemma resume_clean_tail {V : Type} (pre mid : List (Step V)) (c : Step V)
    (runId : String) (resumeData : V) (store : Store V) (st0 : WorkflowState V)
    (hload : store runId = some st0)
    (hrid : st0.runId = runId)
    (hstat : st0.status = Status.suspended)
    (hcur : c.id = st0.currentStep)
    (hprefalse : ∀ x ∈ pre, x.id ≠ st0.currentStep)
    (hmid : ∀ x ∈ mid, CleanStep x)
    (hnodupmid : (mid.map Step.id).Nodup)
    (hfreshmid : ∀ x ∈ mid, x.id ∉ st0.stepData.map Prod.fst) :
    ∃ (result : V) (st' : WorkflowState V),
      resumeWorkflow (pre ++ c :: mid) runId resumeData store =
        (Except.ok (RunOutcome.completed result),
          saveWorkflowState
            (saveWorkflowState store { st0 with status := Status.running }) st') ∧
      st'.runId = runId ∧
      st'.status = Status.completed ∧
      st'.suspendReason = st0.suspendReason ∧
      st'.stepData.map Prod.fst = st0.stepData.map Prod.fst ++ mid.map Step.id := by
  rw [resumeWorkflow_unfold pre mid c runId resumeData store st0
    hload hstat hcur hprefalse]
  obtain ⟨out, stM, pairs, hys, hrun, -, hreason, -, hkeys, hdata, -⟩ :=
    stepLoop_clean_chunk runId mid resumeData { st0 with status := Status.running }
      hmid hnodupmid hfreshmid
  have hysnil := hys []
    (saveWorkflowState store { st0 with status := Status.running })
  rw [List.append_nil] at hysnil
  refine ⟨out, { stM with status := Status.completed }, ?_, ?_, rfl, ?_, ?_⟩
  · rw [hysnil, stepLoop_nil]
  · show stM.runId = runId
    rw [hrun]
    exact hrid
  · show stM.suspendReason = st0.suspendReason
    exact hreason
  · show stM.stepData.map Prod.fst = _
    rw [hdata]
    simp [hkeys]

/-- C6: for a pipeline whose first and third steps request suspension (second
step and any trailing steps clean), a launch followed by exactly two resume
calls reaches status completed; after the launch and after the first resume,
inspecting the run reports status suspended with `currentStep` equal to the
step that most recently requested suspension. -/
theorem C6_multiple_suspension_points {V : Type} (s1 s2 s3 : Step V)
    (post : List (Step V)) (input d1 d2 : V) (runId : String) (store : Store V)
    (hnodup : ((s1 :: s2 :: s3 :: post).map Step.id).Nodup)
    (hs1 : SuspendingStep s1) (hs2 : CleanStep s2) (hs3 : SuspendingStep s3)
    (hpost : ∀ x ∈ post, CleanStep x) :
    ∃ (reason1 reason3 : Option String) (result : V),
      (launchWorkflow (s1 :: s2 :: s3 :: post) input runId store).1 =
        Except.ok (RunOutcome.suspended reason1 runId s1.id) ∧
      ((loadWorkflowState
          (launchWorkflow (s1 :: s2 :: s3 :: post) input runId store).2.2
          runId).map (fun st => (st.status, st.currentStep))) =
        some (Status.suspended, s1.id) ∧
      (resumeWorkflow (s1 :: s2 :: s3 :: post) runId d1
          (launchWorkflow (s1 :: s2 :: s3 :: post) input runId store).2.2).1 =
        Except.ok (RunOutcome.suspended reason3 runId s3.id) ∧
      ((loadWorkflowState
          (resumeWorkflow (s1 :: s2 :: s3 :: post) runId d1
            (launchWorkflow (s1 :: s2 :: s3 :: post) input runId store).2.2).2
          runId).map (fun st => (st.status, st.currentStep))) =
        some (Status.suspended, s3.id) ∧
      (resumeWorkflow (s1 :: s2 :: s3 :: post) runId d2
          (resumeWorkflow (s1 :: s2 :: s3 :: post) runId d1
            (launchWorkflow (s1 :: s2 :: s3 :: post) input runId store).2.2).2).1 =
        Except.ok (RunOutcome.completed result) ∧
      ((loadWorkflowState
          (resumeWorkflow (s1 :: s2 :: s3 :: post) runId d2
            (resumeWorkflow (s1 :: s2 :: s3 :: post) runId d1
              (launchWorkflow (s1 :: s2 :: s3 :: post) input runId store).2.2).2).2
          runId).map (fun st => st.status)) = some Status.completed := by
  simp only [List.map_cons, List.nodup_cons, List.mem_cons] at hnodup
  push_neg at hnodup
  obtain ⟨⟨h12, h13, h1p⟩, ⟨h23, h2p⟩, h3p, hnp⟩ := hnodup
  obtain ⟨r1, hr1, hsus1⟩ := hs1 input
  obtain ⟨r2, hr2, hsus2⟩ := hs2 d1
  obtain ⟨r3, hr3, hsus3⟩ := hs3 r2.output
  -- phase 1: launch suspends at s1
  have hLaunch : launchWorkflow (s1 :: s2 :: s3 :: post) input runId store =
      (Except.ok (RunOutcome.suspended r1.reason runId s1.id),
        { initState input runId with
          currentStep := s1.id
          stepData := setData (initState input runId).stepData s1.id r1.output
          status := Status.suspended
          suspendReason := r1.reason },
        saveWorkflowState (saveWorkflowState store (initState input runId))
          { initState input runId with
            currentStep := s1.id
            stepData := setData (initState input runId).stepData s1.id r1.output
            status := Status.suspended
            suspendReason := r1.reason }) :=
    stepLoop_cons_suspend hr1 hsus1 runId (s2 :: s3 :: post) (initState input runId)
      (saveWorkflowState store (initState input runId))
  have hAex : ∃ A : WorkflowState V,
      (launchWorkflow (s1 :: s2 :: s3 :: post) input runId store).2.2 runId =
        some A ∧
      A.runId = runId ∧ A.status = Status.suspended ∧ A.currentStep = s1.id ∧
      A.stepData.map Prod.fst = [s1.id] := by
    refine ⟨{ runId := runId
              status := Status.suspended
              currentStep := s1.id
              stepData := setData [] s1.id r1.output
              inputData := input
              suspendReason := r1.reason },
      by rw [hLaunch]; simp [saveWorkflowState, initState], rfl, rfl, rfl, rfl⟩
  obtain ⟨A, hload1, hridA, hstatA, hcurA, hkeysA⟩ := hAex
  obtain ⟨r3, B, heq2, hsus3, hridB, hstatB, hcurB, hreasB, hkeysB⟩ :=
    resume_suspend_tail [] [s2] post s1 s3 runId d1
      (launchWorkflow (s1 :: s2 :: s3 :: post) input runId store).2.2 A
      hload1 hridA hstatA hcurA.symm
      (by intro x hx; exact absurd hx (List.not_mem_nil x))
      (by
        intro x hx
        simp only [List.mem_singleton] at hx
        exact hx ▸ hs2)
      (by simp)
      (by
        intro x hx
        simp only [List.mem_singleton] at hx
        subst hx
        rw [hkeysA]
        simp only [List.mem_singleton]
        exact fun hh => h12 hh.symm)
      (by
        rw [hkeysA]
        simp only [List.mem_singleton]
        exact fun hh => h13 hh.symm)
      (by
        simp only [List.map_cons, List.map_nil, List.mem_singleton]
        exact fun hh => h23 hh.symm)
      hs3
  simp only [List.nil_append, List.singleton_append] at heq2
  have hload2 : (resumeWorkflow (s1 :: s2 :: s3 :: post) runId d1
      (launchWorkflow (s1 :: s2 :: s3 :: post) input runId store).2.2).2 runId =
      some B := by
    rw [heq2]
    show saveWorkflowState _ _ runId = _
    simp [saveWorkflowState, hridB]
  have hkeysB' : B.stepData.map Prod.fst = [s1.id, s2.id, s3.id] := by
    rw [hkeysB, hkeysA]
    simp
  obtain ⟨result, Cst, heq3, hridC, hstatC, -, -⟩ :=
    resume_clean_tail [s1, s2] post s3 runId d2
      (resumeWorkflow (s1 :: s2 :: s3 :: post) runId d1
        (launchWorkflow (s1 :: s2 :: s3 :: post) input runId store).2.2).2 B
      hload2 hridB hstatB hcurB.symm
      (by
        intro x hx h
        rw [hcurB] at h
        rcases List.mem_cons.mp hx with h1 | h1
        · exact h13 (h1 ▸ h)
        · simp only [List.mem_singleton] at h1
          exact h23 (h1 ▸ h))
      hpost hnp
      (by
        intro x hx
        rw [hkeysB']
        simp only [List.mem_cons, List.not_mem_nil, or_false]
        push_neg
        refine ⟨?_, ?_, ?_⟩
        · exact fun hh => h1p (hh ▸ List.mem_map_of_mem Step.id hx)
        · exact fun hh => h2p (hh ▸ List.mem_map_of_mem Step.id hx)
        · exact fun hh => h3p (hh ▸ List.mem_map_of_mem Step.id hx))
  simp only [List.cons_append, List.singleton_append, List.nil_append] at heq3
  refine ⟨r1.reason, r3.reason, result, by rw [hLaunch], ?_, by rw [heq2], ?_,
    by rw [heq3], ?_⟩
  · simp only [loadWorkflowState]
    rw [hload1]
    simp [hstatA, hcurA]
  · simp only [loadWorkflowState]
    rw [hload2]
    simp [hstatB, hcurB]
  · simp only [loadWorkflowState]
    rw [heq3]
    show ((saveWorkflowState _ _ runId).map _) = _
    simp [saveWorkflowState, hridC, hstatC]

/-- C6 witness: pipeline `[exStepS, exStepA, exStepU]` whose first and third
steps suspend; launch on `0`, then resume with `1`, then resume with `2`. -/
theorem C6_multiple_suspension_points_witness :
    ∃ (reason1 reason3 : Option String) (result : Nat),
      (launchWorkflow [exStepS, exStepA, exStepU] 0 "run-6" (emptyStore Nat)).1 =
        Except.ok (RunOutcome.suspended reason1 "run-6" exStepS.id) ∧
      ((loadWorkflowState
          (launchWorkflow [exStepS, exStepA, exStepU] 0 "run-6"
            (emptyStore Nat)).2.2 "run-6").map
          (fun st => (st.status, st.currentStep))) =
        some (Status.suspended, exStepS.id) ∧
      (resumeWorkflow [exStepS, exStepA, exStepU] "run-6" 1
          (launchWorkflow [exStepS, exStepA, exStepU] 0 "run-6"
            (emptyStore Nat)).2.2).1 =
        Except.ok (RunOutcome.suspended reason3 "run-6" exStepU.id) ∧
      ((loadWorkflowState
          (resumeWorkflow [exStepS, exStepA, exStepU] "run-6" 1
            (launchWorkflow [exStepS, exStepA, exStepU] 0 "run-6"
              (emptyStore Nat)).2.2).2 "run-6").map
          (fun st => (st.status, st.currentStep))) =
        some (Status.suspended, exStepU.id) ∧
      (resumeWorkflow [exStepS, exStepA, exStepU] "run-6" 2
          (resumeWorkflow [exStepS, exStepA, exStepU] "run-6" 1
            (launchWorkflow [exStepS, exStepA, exStepU] 0 "run-6"
              (emptyStore Nat)).2.2).2).1 =
        Except.ok (RunOutcome.completed result) ∧
      ((loadWorkflowState
          (resumeWorkflow [exStepS, exStepA, exStepU] "run-6" 2
            (resumeWorkflow [exStepS, exStepA, exStepU] "run-6" 1
              (launchWorkflow [exStepS, exStepA, exStepU] 0 "run-6"
                (emptyStore Nat)).2.2).2).2 "run-6").map
          (fun st => st.status)) = some Status.completed :=
  C6_multiple_suspension_points exStepS exStepA exStepU [] 0 1 2 "run-6"
    (emptyStore Nat) (by decide) exStepS_suspending exStepA_clean
    exStepU_suspending
    (by intro x hx; exact absurd hx (List.not_mem_nil x))

/-- C7 counterexample: step `"x"` returns `suspend = true` with `reason`
missing; `launch` does not raise any violation — it returns a successful
Suspended outcome with reason `none` and stores status suspended with
`suspendReason` absent, silently accepting the result. -/
theorem C7_counterexample_no_validation :
    (launchWorkflow [exStepX] 0 "run-7" (emptyStore Nat)).1 =
      Except.ok (RunOutcome.suspended none "run-7" "x") ∧
    ((launchWorkflow [exStepX] 0 "run-7" (emptyStore Nat)).2.2 "run-7").map
      (fun st => (st.status, st.suspendReason)) =
      some (Status.suspended, none) := by
  exact ⟨rfl, rfl⟩

/-- C7 amended: the runner performs no validation of the suspension reason.
A `StepResult` with `suspend = true` and a missing `reason` is accepted
silently: the run transitions to suspended with `suspendReason` absent and
the Suspended outcome carries reason `none`. -/
theorem C7_amended_no_reason_validation {V : Type} (pre post : List (Step V))
    (s : Step V) (input : V) (runId : String) (store : Store V)
    (hnodup : (pre.map Step.id).Nodup)
    (hpre : ∀ x ∈ pre, CleanStep x)
    (hs : ∀ v, ∃ r, s.execute v = Except.ok r ∧ r.suspend = true ∧
      r.reason = none) :
    ∃ st' : WorkflowState V,
      (launchWorkflow (pre ++ s :: post) input runId store).1 =
        Except.ok (RunOutcome.suspended none runId s.id) ∧
      (launchWorkflow (pre ++ s :: post) input runId store).2.2 runId = some st' ∧
      st'.status = Status.suspended ∧
      st'.suspendReason = none := by
  obtain ⟨out, st', pairs, hys, hrun, -, -, -, -, -, -⟩ :=
    stepLoop_clean_chunk runId pre input (initState input runId) hpre hnodup
      (fun x _ => by simp [initState])
  obtain ⟨r, hr, hsus, hreas⟩ := hs out
  have hloop : launchWorkflow (pre ++ s :: post) input runId store =
      stepLoop runId (s :: post) out st'
        (saveWorkflowState store (initState input runId)) :=
    hys (s :: post) (saveWorkflowState store (initState input runId))
  rw [stepLoop_cons_suspend hr hsus] at hloop
  have hid : st'.runId = runId := by
    rw [hrun]; rfl
  refine ⟨{ st' with
      currentStep := s.id
      stepData := setData st'.stepData s.id r.output
      status := Status.suspended
      suspendReason := r.reason }, ?_, ?_, rfl, hreas⟩
  · rw [hloop, hreas]
  · rw [hloop]
    show saveWorkflowState _ _ runId = _
    simp [saveWorkflowState, hid]

/-- C7 amended witness: the single-step pipeline `[exStepX]` suspending with
a missing reason, launched on input `0`. -/
theorem C7_amended_no_reason_validation_witness :
    ∃ st' : WorkflowState Nat,
      (launchWorkflow ([] ++ exStepX :: []) 0 "run-7" (emptyStore Nat)).1 =
        Except.ok (RunOutcome.suspended none "run-7" exStepX.id) ∧
      (launchWorkflow ([] ++ exStepX :: []) 0 "run-7" (emptyStore Nat)).2.2
        "run-7" = some st' ∧
      st'.status = Status.suspended ∧
      st'.suspendReason = none :=
  C7_amended_no_reason_validation [] [] exStepX 0 "run-7" (emptyStore Nat)
    (by simp)
    (by intro x hx; exact absurd hx (List.not_mem_nil x))
    (fun v => ⟨⟨v, true, none⟩, rfl, rfl, rfl⟩)

/-- C8 counterexample: launch `[exStepS, exStepA]` (suspends at `"s"` with
reason `"needs review"`), then resume to completion; the final stored state
has status completed yet still carries `suspendReason = some "needs review"`
— the reason is not cleared on resume, refuting the claimed invariant that a
non-suspended stored state has no `suspendReason`. -/
theorem C8_counterexample_reason_not_cleared :
    ((resumeWorkflow [exStepS, exStepA] "run-8" 5
        (launchWorkflow [exStepS, exStepA] 0 "run-8" (emptyStore Nat)).2.2).2
      "run-8").map (fun st => (st.status, st.suspendReason)) =
      some (Status.completed, some "needs review") := by
  exact rfl

/-- C8 amended: `suspendReason` is set when a step suspends, but it is NOT
cleared on resume: the resumed run's final stored state retains the
`suspendReason` of the suspended state it started from, even once its status
is completed. -/
theorem C8_amended_suspendReason_retained {V : Type} (pre mid : List (Step V))
    (c : Step V) (runId : String) (resumeData : V) (store : Store V)
    (st0 : WorkflowState V)
    (hload : store runId = some st0)
    (hrid : st0.runId = runId)
    (hstat : st0.status = Status.suspended)
    (hcur : c.id = st0.currentStep)
    (hprefalse : ∀ x ∈ pre, x.id ≠ st0.currentStep)
    (hmid : ∀ x ∈ mid, CleanStep x)
    (hnodupmid : (mid.map Step.id).Nodup)
    (hfreshmid : ∀ x ∈ mid, x.id ∉ st0.stepData.map Prod.fst) :
    ∃ (result : V) (st' : WorkflowState V),
      (resumeWorkflow (pre ++ c :: mid) runId resumeData store).1 =
        Except.ok (RunOutcome.completed result) ∧
      (resumeWorkflow (pre ++ c :: mid) runId resumeData store).2 runId =
        some st' ∧
      st'.status = Status.completed ∧
      st'.suspendReason = st0.suspendReason := by
  obtain ⟨result, st', heq, hridC, hstatC, hreasC, -⟩ :=
    resume_clean_tail pre mid c runId resumeData store st0 hload hrid hstat hcur
      hprefalse hmid hnodupmid hfreshmid
  refine ⟨result, st', by rw [heq], ?_, hstatC, hreasC⟩
  rw [heq]
  show saveWorkflowState _ _ runId = _
  simp [saveWorkflowState, hridC]

/-- C8 amended witness: resuming the run suspended at `"s"` of
`[exStepS, exStepA]` completes while retaining `suspendReason =
some "needs review"`. -/
theorem C8_amended_suspendReason_retained_witness :
    ∃ (result : Nat) (st' : WorkflowState Nat),
      (resumeWorkflow ([] ++ exStepS :: [exStepA]) "run-3" 5
        (saveWorkflowState (emptyStore Nat) exSuspendedState)).1 =
        Except.ok (RunOutcome.completed result) ∧
      (resumeWorkflow ([] ++ exStepS :: [exStepA]) "run-3" 5
        (saveWorkflowState (emptyStore Nat) exSuspendedState)).2 "run-3" =
        some st' ∧
      st'.status = Status.completed ∧
      st'.suspendReason = exSuspendedState.suspendReason :=
  C8_amended_suspendReason_retained [] [exStepA] exStepS "run-3" 5
    (saveWorkflowState (emptyStore Nat) exSuspendedState) exSuspendedState
    (by simp [saveWorkflowState, exSuspendedState]) rfl rfl rfl
    (by intro x hx; exact absurd hx (List.not_mem_nil x))
    (by
      intro x hx
      simp only [List.mem_singleton] at hx
      exact hx ▸ exStepA_clean)
    (by simp)
    (by decide)

end Factor06
